import Mathlib

/-!
Shallow embedding of `src/stock_bot.py` (Telegram Indonesian stock bot).

The bot's own logic is: a TTL quote cache (`StockBot.get_stock_data`),
derived price fields, symbol normalization (`StockBot.search_stock`),
display-name fallback, graceful AI degradation (`StockBot.ai_chat`), and
free-text routing (`StockBot.handle_text`).  External collaborators
(yfinance, the Telegram SDK, the Gemini client, wall-clock time) are
modelled as explicit arguments/oracles; machine time is a `Nat` count of
seconds; Python floats are modelled as `Rat`.

Python string builtins used by the source are embedded at the code-point
level (`String.data : List Char`), which matches Python's sequence-of-code-
points string semantics.
-/

namespace StockBotSpec

/-- Python `s.endswith(post)`: code-point suffix test. -/
def pyEndsWith (s post : String) : Bool :=
  post.data.isSuffixOf s.data

/-- Python `s.lower()` (ASCII-relevant part; the source only compares ASCII). -/
def pyLower (s : String) : String :=
  ⟨s.data.map Char.toLower⟩

/-- Python `s.upper()` (ASCII-relevant part). -/
def pyUpper (s : String) : String :=
  ⟨s.data.map Char.toUpper⟩

/-- Python `len(s)`: number of code points. -/
def pyLen (s : String) : Nat :=
  s.data.length

/-- Python `s.strip()`: remove leading and trailing whitespace. -/
def pyStrip (s : String) : String :=
  ⟨((s.data.dropWhile Char.isWhitespace).reverse.dropWhile Char.isWhitespace).reverse⟩

/-- Python `s.isalpha()`: nonempty and every character alphabetic. -/
def pyIsAlpha (s : String) : Bool :=
  !s.data.isEmpty && s.data.all Char.isAlpha

/-- Python `pat in s`: substring containment on code points. -/
def containsAux (pat : List Char) : List Char → Bool
  | [] => pat.isEmpty
  | c :: rest => pat.isPrefixOf (c :: rest) || containsAux pat rest

/-- Python `pat in s` for strings. -/
def pyContains (s pat : String) : Bool :=
  containsAux pat.data s.data

/-- Replace every (non-overlapping, left-to-right) occurrence of `pat` by
`rep`, with explicit structural fuel; each step consumes one fuel unit and
at least one input character (the source only calls this with the nonempty
pattern `".JK"`). -/
def replaceFuel (pat rep : List Char) : Nat → List Char → List Char
  | _, [] => []
  | 0, s => s
  | fuel + 1, c :: rest =>
    if pat.isPrefixOf (c :: rest) && !pat.isEmpty then
      rep ++ replaceFuel pat rep fuel ((c :: rest).drop pat.length)
    else
      c :: replaceFuel pat rep fuel rest

/-- Python `s.replace(pat, rep)` for a nonempty `pat` (the only use in the
source is `code.replace(".JK", "")`). -/
def pyReplace (s pat rep : String) : String :=
  ⟨replaceFuel pat.data rep.data s.data.length s.data⟩

/-- Line 270 of the source (`StockBot.search_stock`):
`code = f"{stock_code}.JK" if not stock_code.endswith(".JK") else stock_code`. -/
def normalize_code (stock_code : String) : String :=
  if !(pyEndsWith stock_code ".JK") then stock_code ++ ".JK" else stock_code

/-- The static symbol-to-name table `POPULAR_STOCKS` (lines 57-70). -/
def POPULAR_STOCKS : List (String × String) :=
  [("BBCA.JK", "Bank Central Asia"),
   ("BBRI.JK", "Bank Rakyat Indonesia"),
   ("BMRI.JK", "Bank Mandiri"),
   ("TLKM.JK", "Telkom Indonesia"),
   ("ASII.JK", "Astra International"),
   ("UNVR.JK", "Unilever Indonesia"),
   ("ICBP.JK", "Indofood CBP"),
   ("KLBF.JK", "Kalbe Farma"),
   ("GGRM.JK", "Gudang Garam"),
   ("INDF.JK", "Indofood Sukses Makmur"),
   ("GOTO.JK", "GoTo Gojek Tokopedia"),
   ("BUKA.JK", "Bukalapak")]

/-- The quote record built on a successful fetch (the `data` dict, lines
108-115): code, display name, latest close, change, percent change, volume. -/
structure StockData where
  code : String
  name : String
  current_price : Rat
  change : Rat
  change_pct : Rat
  volume : Rat
deriving DecidableEq, Repr

/-- A fetched price history: chronological rows of (close, volume).  Both
columns come from the same `yfinance` frame, hence share a length. -/
abbrev Hist := List (Rat × Rat)

/-- `self.stock_cache : Dict[str, tuple[dict, datetime]]` (line 84), as an
association list from symbol to (record, fetch time in seconds). -/
abbrev Cache := List (String × StockData × Nat)

/-- `self.cache_expiry = timedelta(minutes=5)` (line 85), in seconds. -/
def cache_expiry : Nat := 300

/-- Outcome of `yf.Ticker(code).history(period="5d")`: either the provider
raised an exception, or it returned a (possibly empty) history. -/
inductive FetchOutcome where
  | exc
  | hist (rows : Hist)
deriving DecidableEq, Repr

/-- The `Close` column of a history. -/
def closes (rows : Hist) : List Rat := rows.map Prod.fst

/-- The `Volume` column of a history. -/
def volumes (rows : Hist) : List Rat := rows.map Prod.snd

/-- Pandas `series.iloc[-1]` (only used on nonempty series; the default is
never reached there). -/
def iloc_last (l : List Rat) : Rat := l.getLast?.getD 0

/-- Pandas `series.iloc[-2]` (only used when the series has length > 1). -/
def iloc_penult (l : List Rat) : Rat := l.dropLast.getLast?.getD 0

/-- Line 103: `current_price = hist['Close'].iloc[-1]`. -/
def current_price (rows : Hist) : Rat := iloc_last (closes rows)

/-- Line 104: `prev_close = hist['Close'].iloc[-2] if len(hist) > 1 else current_price`. -/
def prev_close (rows : Hist) : Rat :=
  if rows.length > 1 then iloc_penult (closes rows) else current_price rows

/-- Line 105: `change = current_price - prev_close` (Python local `change`;
named `price_change` here to avoid shadowing a tactic name). -/
def price_change (rows : Hist) : Rat := current_price rows - prev_close rows

/-- Line 106: `change_pct = (change / prev_close * 100) if prev_close else 0`
(a Python float is falsy exactly when it is zero). -/
def change_pct (rows : Hist) : Rat :=
  if prev_close rows = 0 then 0 else price_change rows / prev_close rows * 100

/-- The record construction of lines 108-115, including the display-name
fallback `self.popular_stocks.get(code, code.replace('.JK', ''))` (line 110)
and `volume = hist['Volume'].iloc[-1] if not hist['Volume'].empty else 0`
(line 114). -/
def mkStockData (code : String) (rows : Hist) : StockData :=
  { code := code
    name := (List.lookup code POPULAR_STOCKS).getD (pyReplace code ".JK" "")
    current_price := current_price rows
    change := price_change rows
    change_pct := change_pct rows
    volume := if !(volumes rows).isEmpty then iloc_last (volumes rows) else 0 }

/-- Result of one `get_stock_data` call: the returned value, the cache map
after the call, and how many external fetches were issued (0 or 1). -/
structure LookupOut where
  result : Option StockData
  cache : Cache
  fetch_calls : Nat
deriving DecidableEq, Repr

/-- Lines 96-123 (the `try` block of `get_stock_data`): issue the fetch; an
exception or an empty history yields `None` and leaves the cache untouched;
otherwise build the record, store `(data, now)` under `code`, and return it. -/
def fetch_store (cache : Cache) (now : Nat) (fetch : FetchOutcome) (code : String) : LookupOut :=
  match fetch with
  | .exc => ⟨none, cache, 1⟩
  | .hist rows =>
    if rows.isEmpty then ⟨none, cache, 1⟩
    else ⟨some (mkStockData code rows), (code, mkStockData code rows, now) :: cache, 1⟩

/-- `StockBot.get_stock_data` (lines 88-123).  The cache-hit test is line 93:
`datetime.now() - timestamp < self.cache_expiry` (with `Nat` subtraction a
timestamp in the future also counts as fresh, exactly as Python's negative
timedelta does). -/
def get_stock_data (cache : Cache) (now : Nat) (fetch : FetchOutcome) (code : String) : LookupOut :=
  match List.lookup code cache with
  | some (data, timestamp) =>
    if now - timestamp < cache_expiry then ⟨some data, cache, 0⟩
    else fetch_store cache now fetch code
  | none => fetch_store cache now fetch code

/-- Key-consistency invariant of the cache map: every entry's stored record
carries the entry's own key as its `code` field. -/
def CacheInv (cache : Cache) : Prop :=
  ∀ entry ∈ cache, (entry.2.1).code = entry.1

/-- Truthiness of the `AI_API_KEY` global (lines 38-44): configured and
nonempty. -/
def keyTruthy (ai_api_key : Option String) : Bool :=
  match ai_api_key with
  | none => false
  | some k => !k.data.isEmpty

/-- Outcome of `gemini_model.generate_content(...)` (line 157): the client
raised, or returned a response whose `.text` is modelled as a string (an
empty string models a falsy `response.text`). -/
inductive LLMOutcome where
  | exc (msg : String)
  | ok (text : String)
deriving DecidableEq, Repr

/-- Line 130: the static unavailable message returned when no AI credential
is configured. -/
def MSG_NO_KEY : String :=
  "❌ AI Assistant tidak tersedia (API key tidak dikonfigurasi)"

/-- Lines 133-140: message when a key exists but no Gemini model object. -/
def MSG_NO_MODEL : String :=
  "❌ AI Assistant tidak tersedia saat ini\n\n🔧 **Untuk mengaktifkan AI:**\n1. Install: `pip install google-generativeai`\n2. Set GEMINI_API_KEY di Railway Variables\n3. Restart bot\n\n📊 Sementara gunakan fitur saham: `/stock BBCA`"

/-- Lines 170-175: quota-exhausted reply. -/
def MSG_QUOTA : String :=
  "❌ AI Assistant sementara tidak tersedia (quota habis)\n\n🔧 **Solusi:**\n1. Cek usage di ai.google.dev\n2. Tunggu reset quota harian\n3. Atau gunakan fitur saham: `/stock BBCA`"

/-- Lines 177-179: safety-policy reply. -/
def MSG_SAFETY : String :=
  "❌ Pertanyaan tidak dapat dijawab karena policy keamanan\n\n💡 Coba pertanyaan yang lebih umum tentang investasi atau saham"

/-- Lines 168-181: the `except` clause of `ai_chat`, branching on the
stringified exception. -/
def handle_ai_error (e : String) : String :=
  if pyContains (pyLower e) "quota" || pyContains e "429" then MSG_QUOTA
  else if pyContains (pyLower e) "safety" then MSG_SAFETY
  else "❌ AI Assistant bermasalah sementara. Coba lagi nanti."

/-- Lines 144-155: the stock-focused prompt wrapped around the user's
question. -/
def enhanced_prompt (user_question : String) : String :=
  "Anda adalah AI assistant ahli saham dan investasi Indonesia. Berikan jawaban yang:\n\n1. Fokus pada saham Indonesia dan Bursa Efek Indonesia (BEI)\n2. Berikan informasi edukasi investasi yang baik dan akurat\n3. Gunakan bahasa Indonesia yang mudah dipahami\n4. Berikan contoh konkret jika relevan\n5. Maksimal 400 kata per jawaban\n6. Selalu tambahkan disclaimer bahwa ini hanya informasi edukasi, bukan nasihat investasi\n\nPertanyaan: "
    ++ user_question ++ "\n\nBerikan jawaban yang informatif dan edukatif."

/-- `StockBot.ai_chat` (lines 127-181).  The LLM provider is an oracle from
the submitted prompt to an outcome.  Returns the reply text together with
the number of LLM-provider calls issued (0 or 1); every oracle outcome,
including a raised exception, is mapped to a returned string, so nothing
propagates to the caller. -/
def ai_chat (ai_api_key : Option String) (gemini_model : Bool) (llm : String → LLMOutcome)
    (user_question : String) : String × Nat :=
  if !(keyTruthy ai_api_key) then (MSG_NO_KEY, 0)
  else if !gemini_model then (MSG_NO_MODEL, 0)
  else
    match llm (enhanced_prompt user_question) with
    | .exc e => (handle_ai_error e, 1)
    | .ok text =>
      if !text.data.isEmpty then
        ("🤖 **AI Assistant (Gemini)**\n\n" ++ pyStrip text ++ "\n\n💡 *Ini hanya informasi edukasi, bukan nasihat investasi*", 1)
      else
        ("❌ AI tidak dapat memberikan jawaban untuk pertanyaan ini", 1)

/-- Line 488: the question-indicator list of `handle_text`. -/
def question_words : List String :=
  ["apa", "bagaimana", "mengapa", "kenapa", "kapan", "dimana", "siapa", "?"]

/-- Line 489: `is_question = any(word in text.lower() for word in question_words) or text.endswith('?')`. -/
def is_question (text : String) : Bool :=
  question_words.any (fun word => pyContains (pyLower text) word) || pyEndsWith text "?"

/-- Where `handle_text` routes a message: to the AI chat, to a stock-code
lookup, or to the usage-suggestion reply (which contacts no provider). -/
inductive Route where
  | ai_route
  | stock_lookup (code : String)
  | suggest_usage
deriving DecidableEq, Repr

/-- `StockBot.handle_text` (lines 483-512), as the routing decision on the
raw message text: strip, then AI chat iff question-like and longer than 10
characters, else stock lookup iff at most 6 characters and alphabetic after
uppercasing, else the usage suggestion. -/
def handle_text (raw : String) : Route :=
  let text := pyStrip raw
  if is_question text && pyLen text > 10 then Route.ai_route
  else if pyLen text ≤ 6 && pyIsAlpha (pyUpper text) then Route.stock_lookup (pyUpper text)
  else Route.suggest_usage

/-- Modelled from the spec: "strip the suffix and use the bare symbol as the
display name" — the suffix-stripping reading of the display-name fallback,
used to compare against the source's `code.replace('.JK', '')`. -/
def strip_JK_suffix (s : String) : String :=
  if pyEndsWith s ".JK" then ⟨s.data.take (s.data.length - 3)⟩ else s

/-! ## Helper lemmas -/

theorem mkStockData_code (code : String) (rows : Hist) : (mkStockData code rows).code = code :=
  rfl

theorem get_stock_data_lookup_none {cache : Cache} {code : String} (now : Nat) (f : FetchOutcome)
    (h : List.lookup code cache = none) :
    get_stock_data cache now f code = fetch_store cache now f code := by
  unfold get_stock_data
  rw [h]

theorem get_stock_data_lookup_some {cache : Cache} {code : String} {d : StockData} {ts : Nat}
    (now : Nat) (f : FetchOutcome) (h : List.lookup code cache = some (d, ts)) :
    get_stock_data cache now f code =
      if now - ts < cache_expiry then ⟨some d, cache, 0⟩ else fetch_store cache now f code := by
  unfold get_stock_data
  rw [h]

theorem fetch_store_hist_ne (cache : Cache) (now : Nat) (code : String) {rows : Hist}
    (h : rows ≠ []) :
    fetch_store cache now (FetchOutcome.hist rows) code =
      ⟨some (mkStockData code rows), (code, mkStockData code rows, now) :: cache, 1⟩ := by
  cases rows with
  | nil => exact absurd rfl h
  | cons r rest => rfl

theorem fetch_store_fail (cache : Cache) (now : Nat) (code : String) (f : FetchOutcome)
    (h : f = FetchOutcome.exc ∨ f = FetchOutcome.hist []) :
    fetch_store cache now f code = ⟨none, cache, 1⟩ := by
  rcases h with rfl | rfl <;> rfl

theorem lookup_cons_self (cache : Cache) (code : String) (v : StockData × Nat) :
    List.lookup code ((code, v) :: cache) = some v := by
  simp [List.lookup]

theorem pyEndsWith_append_JK (s : String) : pyEndsWith (s ++ ".JK") ".JK" = true := by
  simp [pyEndsWith, String.data_append, List.isSuffixOf_iff_suffix]

theorem cacheInv_insert {cache : Cache} (hinv : CacheInv cache) (code : String) (rows : Hist)
    (now : Nat) : CacheInv ((code, mkStockData code rows, now) :: cache) := by
  intro entry hmem
  rcases List.mem_cons.mp hmem with rfl | hmem
  · rfl
  · exact hinv entry hmem

/-! ## Claim theorems -/

/-- C1: a symbol fetched successfully at `t1` (from a cold or stale cache)
and queried again at `t2` within the TTL window is answered from the cache:
the second call returns the very record stored by the first, issues zero
external fetches, and leaves the cache — in particular the stored fetch
timestamp `t1` — unchanged, whatever the second call's fetch oracle would
have produced. -/
theorem ttl_second_query_cached
    (cache : Cache) (t1 t2 : Nat) (rows : Hist) (f2 : FetchOutcome) (code : String)
    (hne : rows ≠ [])
    (hmiss : ∀ p : StockData × Nat, List.lookup code cache = some p → cache_expiry ≤ t1 - p.2)
    (httl : t2 - t1 < cache_expiry) :
    (get_stock_data cache t1 (FetchOutcome.hist rows) code).result = some (mkStockData code rows)
    ∧ (get_stock_data cache t1 (FetchOutcome.hist rows) code).cache
        = (code, mkStockData code rows, t1) :: cache
    ∧ List.lookup code ((code, mkStockData code rows, t1) :: cache)
        = some (mkStockData code rows, t1)
    ∧ get_stock_data ((code, mkStockData code rows, t1) :: cache) t2 f2 code
        = ⟨some (mkStockData code rows), (code, mkStockData code rows, t1) :: cache, 0⟩ := by
  have hstore : get_stock_data cache t1 (FetchOutcome.hist rows) code
      = ⟨some (mkStockData code rows), (code, mkStockData code rows, t1) :: cache, 1⟩ := by
    cases hl : List.lookup code cache with
    | none => rw [get_stock_data_lookup_none t1 _ hl, fetch_store_hist_ne _ _ _ hne]
    | some p =>
      obtain ⟨d, ts⟩ := p
      rw [get_stock_data_lookup_some t1 _ hl, if_neg (Nat.not_lt.mpr (hmiss (d, ts) hl)),
        fetch_store_hist_ne _ _ _ hne]
  have hlk : List.lookup code ((code, mkStockData code rows, t1) :: cache)
      = some (mkStockData code rows, t1) := lookup_cons_self _ _ _
  refine ⟨by rw [hstore], by rw [hstore], hlk, ?_⟩
  rw [get_stock_data_lookup_some t2 f2 hlk, if_pos httl]

theorem ttl_second_query_cached_witness :
    get_stock_data [("BBCA.JK", mkStockData "BBCA.JK" [(100, 10), (105, 12)], 0)] 100
        FetchOutcome.exc "BBCA.JK"
      = ⟨some (mkStockData "BBCA.JK" [(100, 10), (105, 12)]),
         [("BBCA.JK", mkStockData "BBCA.JK" [(100, 10), (105, 12)], 0)], 0⟩ :=
  (ttl_second_query_cached [] 0 100 [(100, 10), (105, 12)] FetchOutcome.exc "BBCA.JK"
      (by decide)
      (fun p hp => by simp at hp)
      (by decide)).2.2.2

/-- C2: when the fetch outcome is a failure (provider exception or empty
series), `get_stock_data` leaves the cache map exactly as it was — nothing
evicted, overwritten or inserted, so any stale entry survives — and, when
the cache held no fresh entry for the symbol (so the fetch was actually
issued), the call returns `none`. -/
theorem fetch_failure_preserves_cache
    (cache : Cache) (now : Nat) (f : FetchOutcome) (code : String)
    (hfail : f = FetchOutcome.exc ∨ f = FetchOutcome.hist []) :
    (get_stock_data cache now f code).cache = cache
    ∧ ((∀ p : StockData × Nat, List.lookup code cache = some p → cache_expiry ≤ now - p.2) →
        (get_stock_data cache now f code).result = none) := by
  have hfs := fetch_store_fail cache now code f hfail
  cases hl : List.lookup code cache with
  | none =>
    rw [get_stock_data_lookup_none now f hl, hfs]
    exact ⟨rfl, fun _ => rfl⟩
  | some p =>
    obtain ⟨d, ts⟩ := p
    rw [get_stock_data_lookup_some now f hl]
    by_cases hfresh : now - ts < cache_expiry
    · rw [if_pos hfresh]
      exact ⟨rfl, fun hstale => absurd (hstale (d, ts) rfl) (Nat.not_le.mpr hfresh)⟩
    · rw [if_neg hfresh, hfs]
      exact ⟨rfl, fun _ => rfl⟩

theorem fetch_failure_preserves_cache_witness :
    (get_stock_data [("TLKM.JK", mkStockData "TLKM.JK" [(50, 1)], 0)] 400 (FetchOutcome.hist [])
        "TLKM.JK").cache = [("TLKM.JK", mkStockData "TLKM.JK" [(50, 1)], 0)]
    ∧ (get_stock_data [("TLKM.JK", mkStockData "TLKM.JK" [(50, 1)], 0)] 400 (FetchOutcome.hist [])
        "TLKM.JK").result = none := by
  have h := fetch_failure_preserves_cache [("TLKM.JK", mkStockData "TLKM.JK" [(50, 1)], 0)] 400
      (FetchOutcome.hist []) "TLKM.JK" (Or.inr rfl)
  refine ⟨h.1, h.2 ?_⟩
  intro p hp
  simp [List.lookup] at hp
  rw [← hp]
  decide

/-- C3: when no cache entry exists for the symbol, or the existing entry's
age has reached the TTL, `get_stock_data` issues the external fetch (one
call); a successful nonempty fetch builds the derived record, stores it
under the symbol with timestamp `now` — strictly later than any replaced
entry's timestamp — and returns it. -/
theorem ttl_elapsed_refetch
    (cache : Cache) (now : Nat) (rows : Hist) (code : String)
    (hne : rows ≠ [])
    (hstale : ∀ p : StockData × Nat, List.lookup code cache = some p → cache_expiry ≤ now - p.2) :
    get_stock_data cache now (FetchOutcome.hist rows) code
      = ⟨some (mkStockData code rows), (code, mkStockData code rows, now) :: cache, 1⟩
    ∧ List.lookup code ((code, mkStockData code rows, now) :: cache)
        = some (mkStockData code rows, now)
    ∧ (∀ p : StockData × Nat, List.lookup code cache = some p → p.2 < now) := by
  refine ⟨?_, lookup_cons_self _ _ _, ?_⟩
  · cases hl : List.lookup code cache with
    | none => rw [get_stock_data_lookup_none now _ hl, fetch_store_hist_ne _ _ _ hne]
    | some p =>
      obtain ⟨d, ts⟩ := p
      rw [get_stock_data_lookup_some now _ hl, if_neg (Nat.not_lt.mpr (hstale (d, ts) hl)),
        fetch_store_hist_ne _ _ _ hne]
  · intro p hp
    have h := hstale p hp
    have hpos : 0 < cache_expiry := by decide
    omega

theorem ttl_elapsed_refetch_witness :
    get_stock_data [("ASII.JK", mkStockData "ASII.JK" [(50, 1)], 0)] 300
        (FetchOutcome.hist [(60, 2)]) "ASII.JK"
      = ⟨some (mkStockData "ASII.JK" [(60, 2)]),
         ("ASII.JK", mkStockData "ASII.JK" [(60, 2)], 300)
           :: [("ASII.JK", mkStockData "ASII.JK" [(50, 1)], 0)], 1⟩ :=
  (ttl_elapsed_refetch [("ASII.JK", mkStockData "ASII.JK" [(50, 1)], 0)] 300 [(60, 2)] "ASII.JK"
      (by decide)
      (fun p hp => by
        simp [List.lookup] at hp
        rw [← hp]
        decide)).1

/-- C4: whenever the derived prior price is falsy (zero — including the
degenerate cases where it is inherited from a zero last price), the derived
percent change is `0`: the division by `prev_close` is guarded and the
record's `change_pct` field never comes from a division by zero. -/
theorem change_pct_zero_of_prior_falsy (code : String) (rows : Hist)
    (hz : prev_close rows = 0) :
    (mkStockData code rows).change_pct = 0 ∧ change_pct rows = 0 := by
  have h : change_pct rows = 0 := by simp [change_pct, hz]
  exact ⟨h, h⟩

theorem change_pct_zero_of_prior_falsy_witness :
    prev_close [((0 : Rat), (5 : Rat))] = 0
    ∧ (mkStockData "GOTO.JK" [(0, 5)]).change_pct = 0 :=
  ⟨rfl, (change_pct_zero_of_prior_falsy "GOTO.JK" [(0, 5)] rfl).1⟩

/-- C5: on a single-sample series the prior price is set to the last price,
so the absolute change is `0` and the percent change is `0`. -/
theorem single_sample_zero_change (code : String) (c v : Rat) :
    prev_close [(c, v)] = current_price [(c, v)]
    ∧ (mkStockData code [(c, v)]).change = 0
    ∧ (mkStockData code [(c, v)]).change_pct = 0 := by
  have hp : prev_close [(c, v)] = current_price [(c, v)] := rfl
  refine ⟨hp, ?_, ?_⟩
  · show price_change [(c, v)] = 0
    rw [price_change, hp, sub_self]
  · show change_pct [(c, v)] = 0
    by_cases h : prev_close [(c, v)] = 0
    · simp [change_pct, h]
    · simp [change_pct, h, price_change, hp]

/-- C6: symbol normalization is idempotent — the normalized form always
carries the `.JK` suffix, so normalizing it again changes nothing; a bare
symbol gets `.JK` appended and an already-suffixed symbol passes through
unchanged. -/
theorem normalize_code_idem (s : String) :
    normalize_code (normalize_code s) = normalize_code s
    ∧ (pyEndsWith s ".JK" = true → normalize_code s = s)
    ∧ (pyEndsWith s ".JK" = false → normalize_code s = s ++ ".JK") := by
  refine ⟨?_, fun h => by simp [normalize_code, h], fun h => by simp [normalize_code, h]⟩
  by_cases h : pyEndsWith s ".JK" = true
  · simp [normalize_code, h]
  · have h' : pyEndsWith s ".JK" = false := by simpa using h
    simp [normalize_code, h', pyEndsWith_append_JK]

theorem normalize_code_idem_witness :
    normalize_code "BBCA" = "BBCA" ++ ".JK" ∧ normalize_code "BBCA.JK" = "BBCA.JK" :=
  ⟨(normalize_code_idem "BBCA").2.2 (by decide), (normalize_code_idem "BBCA.JK").2.1 (by decide)⟩

/-- C7 counterexample: the display-name fallback is `code.replace('.JK', '')`,
which removes every occurrence of `.JK`, not only the trailing suffix.  The
reachable normalized symbol `"BB.JKX.JK"` (the user input `"BB.JKX"` after
normalization) is absent from the table, and its record's display name is
`"BBX"`, not the suffix-stripped `"BB.JKX"` the claim asserts. -/
theorem display_name_strip_mismatch :
    normalize_code "BB.JKX" = "BB.JKX.JK"
    ∧ List.lookup "BB.JKX.JK" POPULAR_STOCKS = none
    ∧ (mkStockData "BB.JKX.JK" [(100, 1)]).name = "BBX"
    ∧ strip_JK_suffix "BB.JKX.JK" = "BB.JKX"
    ∧ (mkStockData "BB.JKX.JK" [(100, 1)]).name ≠ strip_JK_suffix "BB.JKX.JK" :=
  ⟨by decide, by decide, by decide, by decide, by decide⟩

/-- C7 (amended): a symbol present in the static table gets the table's
display name; a symbol absent from it gets the symbol text with every
occurrence of `.JK` removed (which coincides with stripping the exchange
suffix whenever `.JK` occurs only as the suffix). -/
theorem display_name_resolution (code : String) (rows : Hist) :
    (∀ fullname, List.lookup code POPULAR_STOCKS = some fullname →
        (mkStockData code rows).name = fullname)
    ∧ (List.lookup code POPULAR_STOCKS = none →
        (mkStockData code rows).name = pyReplace code ".JK" "") := by
  constructor
  · intro fullname h
    simp [mkStockData, h]
  · intro h
    simp [mkStockData, h]

theorem display_name_resolution_witness :
    (mkStockData "BBCA.JK" [(100, 1)]).name = "Bank Central Asia"
    ∧ (mkStockData "ZZZZ.JK" [(100, 1)]).name = pyReplace "ZZZZ.JK" ".JK" "" :=
  ⟨(display_name_resolution "BBCA.JK" [(100, 1)]).1 "Bank Central Asia" (by decide),
   (display_name_resolution "ZZZZ.JK" [(100, 1)]).2 (by decide)⟩

/-- C8: with no AI credential configured, `ai_chat` returns the static
unavailable message and issues zero calls to the LLM provider, for every
question and every oracle outcome — in particular the result is an ordinary
returned string, never a propagated exception. -/
theorem ai_chat_no_key (gemini_model : Bool) (llm : String → LLMOutcome) (user_question : String) :
    ai_chat none gemini_model llm user_question = (MSG_NO_KEY, 0) :=
  rfl

/-- C9: key consistency of the cache is an invariant of `get_stock_data`:
every stored record carries its key as its `code` field, and the only call
that changes the map at all is a successful nonempty fetch, which prepends
the freshly built entry for the queried symbol. -/
theorem cache_key_consistent
    (cache : Cache) (now : Nat) (f : FetchOutcome) (code : String)
    (hinv : CacheInv cache) :
    CacheInv (get_stock_data cache now f code).cache
    ∧ ((get_stock_data cache now f code).cache ≠ cache →
        ∃ rows, f = FetchOutcome.hist rows ∧ rows ≠ []
          ∧ (get_stock_data cache now f code).cache
              = (code, mkStockData code rows, now) :: cache) := by
  have main : ∀ out : LookupOut, out = get_stock_data cache now f code →
      (out = fetch_store cache now f code ∨ out.cache = cache) →
      CacheInv out.cache
      ∧ (out.cache ≠ cache →
          ∃ rows, f = FetchOutcome.hist rows ∧ rows ≠ []
            ∧ out.cache = (code, mkStockData code rows, now) :: cache) := by
    rintro out rfl (hout | hout)
    · cases f with
      | exc =>
        rw [hout, fetch_store_fail cache now code _ (Or.inl rfl)]
        exact ⟨hinv, fun hc => absurd rfl hc⟩
      | hist rows =>
        cases rows with
        | nil =>
          rw [hout, fetch_store_fail cache now code _ (Or.inr rfl)]
          exact ⟨hinv, fun hc => absurd rfl hc⟩
        | cons r rest =>
          rw [hout, fetch_store_hist_ne cache now code (List.cons_ne_nil r rest)]
          exact ⟨cacheInv_insert hinv code (r :: rest) now,
            fun _ => ⟨r :: rest, rfl, List.cons_ne_nil r rest, rfl⟩⟩
    · rw [hout]
      exact ⟨hinv, fun hc => absurd rfl hc⟩
  apply main _ rfl
  cases hl : List.lookup code cache with
  | none => exact Or.inl (get_stock_data_lookup_none now f hl)
  | some p =>
    obtain ⟨d, ts⟩ := p
    rw [get_stock_data_lookup_some now f hl]
    by_cases hfresh : now - ts < cache_expiry
    · rw [if_pos hfresh]
      exact Or.inr rfl
    · rw [if_neg hfresh]
      exact Or.inl rfl

theorem cache_key_consistent_witness :
    CacheInv (get_stock_data [] 0 (FetchOutcome.hist [(100, 1)]) "INDF.JK").cache :=
  (cache_key_consistent [] 0 (FetchOutcome.hist [(100, 1)]) "INDF.JK"
      (fun entry hmem => absurd hmem (List.not_mem_nil entry))).1

/-- C10: the free-text handler forwards a message to the AI chat only when
the stripped text contains a question indicator and is strictly longer than
10 characters; a stripped text of at most 10 characters is never routed to
the AI — it becomes an uppercased stock-code lookup when it is at most 6
characters and purely alphabetic after uppercasing, and otherwise the
usage-suggestion reply, which contacts no provider. -/
theorem handle_text_routing (raw : String) :
    (handle_text raw = Route.ai_route →
      is_question (pyStrip raw) = true ∧ pyLen (pyStrip raw) > 10)
    ∧ (pyLen (pyStrip raw) ≤ 10 →
        handle_text raw ≠ Route.ai_route
        ∧ (pyLen (pyStrip raw) ≤ 6 ∧ pyIsAlpha (pyUpper (pyStrip raw)) = true →
            handle_text raw = Route.stock_lookup (pyUpper (pyStrip raw)))
        ∧ (¬(pyLen (pyStrip raw) ≤ 6 ∧ pyIsAlpha (pyUpper (pyStrip raw)) = true) →
            handle_text raw = Route.suggest_usage)) := by
  have hform : handle_text raw =
      if is_question (pyStrip raw) && decide (pyLen (pyStrip raw) > 10) then Route.ai_route
      else if decide (pyLen (pyStrip raw) ≤ 6) && pyIsAlpha (pyUpper (pyStrip raw)) then
        Route.stock_lookup (pyUpper (pyStrip raw))
      else Route.suggest_usage := rfl
  rw [hform]
  by_cases h1 : is_question (pyStrip raw) = true <;>
    by_cases h2 : pyLen (pyStrip raw) > 10 <;>
      by_cases h3 : pyLen (pyStrip raw) ≤ 6 <;>
        by_cases h4 : pyIsAlpha (pyUpper (pyStrip raw)) = true <;>
          simp [h1, h2, h3, h4]

theorem handle_text_routing_witness :
    pyLen (pyStrip " bbca ") ≤ 10
    ∧ handle_text " bbca " = Route.stock_lookup (pyUpper (pyStrip " bbca ")) :=
  ⟨by decide, ((handle_text_routing " bbca ").2 (by decide)).2.1 ⟨by decide, by decide⟩⟩

end StockBotSpec
